import Mathlib

/-!
Verification development for the RoboClaw `clawctl` deployment tool.

The definitions below are a shallow embedding of the TypeScript sources:

* `src/clawctl/src/lib/types.ts` — data model (`DeploymentState`,
  `DeploymentMetadata`, `UserInfo`, `PhaseStatus`) and the orchestrator
  `deployCommand` (the 10-phase straight-line pipeline, embedded here as
  `stepPhase` / `rsAfter`);
* `src/clawctl/src/lib/compose.ts` (state-management section) — `createState`,
  `updateState`, `loadState`, `deleteState`, `detectPartialDeployment`,
  `isPhaseComplete`;
* `src/unnamed/part_013` — `buildImage` / `verifyImage`;
* `src/unnamed/part_012` — `runOnboarding` / `checkOnboardingComplete`;
* `src/unnamed/part_014` — `waitForNewPairingRequest` / `autoConnect`.

Remote effects (ssh exec results, file contents, action failures) are modelled
as explicit inputs; the remote persisted state file is an
`Option DeploymentState` threaded through the pipeline.
-/

namespace RoboClaw

/-- Status of a deployment phase (`PhaseStatus` in types.ts):
`'pending' | 'complete' | 'failed'`. -/
inductive PhaseStatus where
  | pending
  | complete
  | failed
deriving DecidableEq, Repr

/-- `DeploymentMetadata` in types.ts: facts discovered once and persisted. -/
structure DeploymentMetadata where
  deployUser : String
  deployUid : Nat
  deployGid : Nat
  deployHome : String
  image : String
  branch : String
deriving DecidableEq, Repr

/-- `DeploymentState` in types.ts: the remote persisted record.  The JS object
`phases : Record<number, PhaseStatus>` holds keys 1..10; it is embedded as a
total function, read only at 1..10 by the code below. -/
structure DeploymentState where
  instanceName : String
  deploymentId : String
  startedAt : String
  lastPhase : Nat
  phases : Nat → PhaseStatus
  metadata : DeploymentMetadata

/-- `UserInfo` in types.ts. -/
structure UserInfo where
  username : String
  uid : Nat
  gid : Nat
  home : String
  inDockerGroup : Bool
deriving DecidableEq, Repr

/-- The phase ordinals stored in the state file (`createState` writes keys
1..10; `Object.values(state.phases)` ranges over them). -/
def phaseNums : List Nat := [1, 2, 3, 4, 5, 6, 7, 8, 9, 10]

/-- `isPhaseComplete` in compose.ts (state section):
`state.phases[phaseNumber] === 'complete'`. -/
def isPhaseComplete (S : DeploymentState) (phaseNumber : Nat) : Bool :=
  S.phases phaseNumber == .complete

/-- The pure content of `updateState` in compose.ts: given the loaded state,
set `state.phases[phaseNumber] = status` and `state.lastPhase = phaseNumber`,
leaving every other field alone. -/
def updateStatePure (S : DeploymentState) (phaseNumber : Nat)
    (status : PhaseStatus) : DeploymentState :=
  { S with
    phases := fun k => if k = phaseNumber then status else S.phases k
    lastPhase := phaseNumber }

/-- `updateState` in compose.ts as a transformer of the remote state file:
it first loads the state; when the load yields nothing it warns and returns
without writing; otherwise it rewrites the file with the updated state. -/
def updateStateRemote (r : Option DeploymentState) (phaseNumber : Nat)
    (status : PhaseStatus) : Option DeploymentState :=
  match r with
  | none => none
  | some S => some (updateStatePure S phaseNumber status)

/-- `createState` in compose.ts: the state object written for a fresh
deployment — all ten phases `'pending'`, `lastPhase = 0`, the generated
deployment id and start timestamp, and the supplied metadata. -/
def createStateFile (instanceName deploymentId startedAt : String)
    (metadata : DeploymentMetadata) : DeploymentState :=
  { instanceName := instanceName
    deploymentId := deploymentId
    startedAt := startedAt
    lastPhase := 0
    phases := fun _ => .pending
    metadata := metadata }

/-- Outcome of the `ssh.exec('cat STATE_FILE')` call inside `loadState`:
either the exec promise rejected, or it resolved with an exit code and
stdout. -/
inductive CatOutcome where
  | raised
  | result (exitCode : Int) (stdout : String)

/-- The try-block of `loadState` in compose.ts, with `JSON.parse` (which
throws on invalid JSON) abstracted as `parse : String → Except Unit
DeploymentState`: exec the read; a nonzero exit returns `null`; otherwise
parse the stdout, propagating a parse exception. -/
def loadStateBody (parse : String → Except Unit DeploymentState)
    (o : CatOutcome) : Except Unit (Option DeploymentState) :=
  match o with
  | .raised => .error ()
  | .result exitCode stdout =>
      if exitCode ≠ 0 then .ok none
      else (parse stdout).map some

/-- `loadState` in compose.ts: the try-block wrapped in the catch that turns
any exception into `null`. -/
def loadState (parse : String → Except Unit DeploymentState)
    (o : CatOutcome) : Option DeploymentState :=
  match loadStateBody parse o with
  | .ok r => r
  | .error _ => none

/-- `detectPartialDeployment` in compose.ts, applied to the result of
`loadState`: return the state when some phase is `'failed'` or `'pending'`;
a fully-complete state (or no state) counts as no partial deployment. -/
def detectPartialDeployment (r : Option DeploymentState) :
    Option DeploymentState :=
  match r with
  | none => none
  | some S =>
      if (phaseNums.any fun k => S.phases k == .failed) ||
          (phaseNums.any fun k => S.phases k == .pending) then some S
      else none

/-!
### The deployment orchestrator (`deployCommand`, deploy.ts section of types.ts)

`deployCommand` is a straight-line sequence of ten phase blocks inside one
try/catch.  The embedding below threads the remote state file
(`Option DeploymentState`) and the `deployUser` variable through the blocks.
Environment inputs that the code obtains from the outside world are fields of
`DeployEnv`:

* `remote0` — the parsed content of the remote state file at the start of the
  run (what `loadState` yields inside `detectPartialDeployment`);
* `force` — the `--force` flag (`detect`ed state is deleted and ignored);
* `fails n` — whether phase `n`'s action raises when executed;
* `freshUser` — the `UserInfo` that `userSetup.createDeploymentUser` returns
  when phase 4's action runs;
* `instanceName`, `branch`, `newDeploymentId`, `newStartedAt` — the values
  `createState` persists (id and timestamp are generated at run time).

A phase's action raising corresponds to the thrown error reaching the catch
block: `halted` becomes true and every later block is skipped.
-/

/-- Environment of one `deployCommand` invocation (see section comment). -/
structure DeployEnv where
  remote0 : Option DeploymentState
  force : Bool
  fails : Nat → Bool
  freshUser : UserInfo
  instanceName : String
  branch : String
  newDeploymentId : String
  newStartedAt : String

/-- The `existingState` variable after the force-handling block of
`deployCommand`: `detectPartialDeployment`, then set to `null` (after
deleting the state file) when `--force` was given. -/
def existingOf (env : DeployEnv) : Option DeploymentState :=
  match detectPartialDeployment env.remote0 with
  | some S => if env.force then none else some S
  | none => none

/-- The remote state-file content when the phase blocks start: unchanged,
except that the force path deleted it. -/
def remoteInit (env : DeployEnv) : Option DeploymentState :=
  match detectPartialDeployment env.remote0 with
  | some _ => if env.force then none else env.remote0
  | none => env.remote0

/-- Mutable context of the run: the remote state file, the `deployUser`
variable (unset before phase 4), and whether an error was thrown. -/
structure RunState where
  remote : Option DeploymentState
  user : Option UserInfo
  halted : Bool

/-- Run context on entering the phase blocks. -/
def rsInit (env : DeployEnv) : RunState :=
  { remote := remoteInit env, user := none, halted := false }

/-- The guard of each phase block 2–8:
`!existingState || !state.isPhaseComplete(existingState, n)`. -/
def phaseNeedsRun (existing : Option DeploymentState) (n : Nat) : Bool :=
  match existing with
  | none => true
  | some S => !(isPhaseComplete S n)

/-- The `deployUser` that the phase-4 skip branch reconstructs from the
persisted metadata (`inDockerGroup` is hard-coded `true` there). -/
def userFromMetadata (m : DeploymentMetadata) : UserInfo :=
  { username := m.deployUser
    uid := m.deployUid
    gid := m.deployGid
    home := m.deployHome
    inDockerGroup := true }

/-- The metadata `deployCommand` passes to `createState` on a fresh run:
the freshly created user's identity, the fixed image tag, and the branch. -/
def metadataForCreate (env : DeployEnv) : DeploymentMetadata :=
  { deployUser := env.freshUser.username
    deployUid := env.freshUser.uid
    deployGid := env.freshUser.gid
    deployHome := env.freshUser.home
    image := "roboclaw/openclaw:local"
    branch := env.branch }

/-- Whether a phase block persists its completion always (phases 5–8) or only
when a prior state exists (phases 2 and 3, whose `updateState` call sits
inside `if (existingState)`). -/
inductive PersistMode where
  | onlyIfResuming
  | always

/-- One guarded phase block of `deployCommand` other than phase 4: skip when
the prior state marks the phase complete; otherwise run the action (raising
halts the run), then persist `'complete'` according to the block's
`PersistMode`. -/
def stepGuarded (env : DeployEnv) (n : Nat) (pm : PersistMode)
    (rs : RunState) : RunState :=
  if phaseNeedsRun (existingOf env) n then
    if env.fails n then { rs with halted := true }
    else
      match pm, existingOf env with
      | .always, _ =>
          { rs with remote := updateStateRemote rs.remote n .complete }
      | .onlyIfResuming, some _ =>
          { rs with remote := updateStateRemote rs.remote n .complete }
      | .onlyIfResuming, none => rs
  else rs

/-- Phase 4 of `deployCommand`: when not already complete, run
`createDeploymentUser` (raising halts), create the state file if the run is
fresh, and persist phase 4 `'complete'`; when already complete, skip the
action and rebuild `deployUser` from the persisted metadata. -/
def stepUserPhase (env : DeployEnv) (rs : RunState) : RunState :=
  if phaseNeedsRun (existingOf env) 4 then
    if env.fails 4 then { rs with halted := true }
    else
      let r1 :=
        match existingOf env with
        | none =>
            some (createStateFile env.instanceName env.newDeploymentId
              env.newStartedAt (metadataForCreate env))
        | some _ => rs.remote
      { rs with
        user := some env.freshUser
        remote := updateStateRemote r1 4 .complete }
  else
    match existingOf env with
    | some S => { rs with user := some (userFromMetadata S.metadata) }
    | none => rs

/-- The body of phase block `n` of `deployCommand` (for a run that has not
halted): phases 2–3 persist only when resuming, phase 4 is the user phase,
phases 5–8 persist unconditionally, phase 9 (`createInstanceArtifact`) has no
guard and no persist, and phase 10 deletes the state file.  Phases outside
2–10 (the pre-network validation and the SSH connection of phase 1) do not
touch the state file. -/
def stepBody (env : DeployEnv) (n : Nat) (rs : RunState) : RunState :=
  match n with
  | 2 => stepGuarded env 2 .onlyIfResuming rs
  | 3 => stepGuarded env 3 .onlyIfResuming rs
  | 4 => stepUserPhase env rs
  | 5 => stepGuarded env 5 .always rs
  | 6 => stepGuarded env 6 .always rs
  | 7 => stepGuarded env 7 .always rs
  | 8 => stepGuarded env 8 .always rs
  | 9 => if env.fails 9 then { rs with halted := true } else rs
  | 10 =>
      if env.fails 10 then { rs with halted := true }
      else { rs with remote := none }
  | _ => rs

/-- Phase block `n`, including the propagation of an earlier thrown error:
once halted, every later block is skipped. -/
def stepPhase (env : DeployEnv) (n : Nat) (rs : RunState) : RunState :=
  if rs.halted then rs else stepBody env n rs

/-- The run context after phase block `k` (`rsAfter env 10` is the context
at the end of the try block). -/
def rsAfter (env : DeployEnv) : Nat → RunState
  | 0 => rsInit env
  | k + 1 => stepPhase env (k + 1) (rsAfter env k)

/-- Whether phase `n`'s action body executes in the run: the run must not
have halted before block `n`, and for the guarded phases 2–8 the prior state
must not mark `n` complete.  Phases 9 and 10 have no guard. -/
def executesPhase (env : DeployEnv) (n : Nat) : Bool :=
  !(rsAfter env (n - 1)).halted &&
    (match n with
     | 2 | 3 | 4 | 5 | 6 | 7 | 8 => phaseNeedsRun (existingOf env) n
     | _ => true)

/-- The remote state file records phase `n` as `'complete'`. -/
def Marked (r : Option DeploymentState) (n : Nat) : Prop :=
  ∃ S, r = some S ∧ S.phases n = .complete

/-- The condition under which block `n` actually attempts its action when the
run reaches it un-halted (guard for 2–8, unconditional for 9–10, vacuous for
the blocks that have no action in this model). -/
def execCond (env : DeployEnv) (n : Nat) : Bool :=
  match n with
  | 2 | 3 | 4 | 5 | 6 | 7 | 8 => phaseNeedsRun (existingOf env) n
  | 9 | 10 => true
  | _ => false

/-!
### Exit codes (`deployCommand`, deploy.ts section of types.ts)
-/

/-- The failure classes named by the spec's exit-code sentence. -/
inductive FailureClass where
  | invalidArgs
  | connectionFailure
  | privilegeFailure
  | packageInstallFailure
  | engineInstallFailure
  | principalSetupFailure
  | directoryFailure
  | imageBuildFailure
  | composeUploadFailure
  | serviceStartFailure
  | artifactFailure
deriving DecidableEq, Repr

/-- The exit code `deployCommand` (deploy.ts section of types.ts) uses for
each failure class: invalid args exit via `process.exit(1)` (line 609), an
unreadable SSH key via `process.exit(1)` (line 625), an authenticated but
non-root principal via `process.exit(2)` (line 678); every error thrown
during the phases — connection failure from `ssh.connect`, and each action's
typed error — reaches the single catch block, which ends with
`process.exit(1)` (line 952). -/
def exitCodeFor : FailureClass → Nat
  | .invalidArgs => 1
  | .connectionFailure => 1
  | .privilegeFailure => 2
  | .packageInstallFailure => 1
  | .engineInstallFailure => 1
  | .principalSetupFailure => 1
  | .directoryFailure => 1
  | .imageBuildFailure => 1
  | .composeUploadFailure => 1
  | .serviceStartFailure => 1
  | .artifactFailure => 1

/-!
### Pairing automation (`src/unnamed/part_014`)

`autoConnect` snapshots the pending pairing requests, then
`waitForNewPairingRequest` polls `getPendingRequests` every
`pollInterval = 2000` ms while `Date.now() - startTime < timeoutMs` with
`timeoutMs = 60000`.  With the polls modelled as instantaneous observations
`polls i` at times `i * pollInterval`, the loop performs exactly
`timeoutMs / pollInterval = 30` polls before timing out.
-/

/-- `PairingRequest` in part_014. -/
structure PairingRequest where
  requestId : String
  deviceId : String
  ip : String
  age : String
deriving DecidableEq, Repr

/-- The inner loop of `waitForNewPairingRequest`: return the first polled
request whose id is not in `existingIds`. -/
def findNewRequest (existingIds : List String)
    (requests : List PairingRequest) : Option PairingRequest :=
  requests.find? fun r => !(existingIds.contains r.requestId)

/-- The polling loop of `waitForNewPairingRequest`: `fuel` polls remain,
the next poll observes `polls i`. -/
def waitLoop (polls : Nat → List PairingRequest) (existingIds : List String) :
    Nat → Nat → Option PairingRequest
  | _, 0 => none
  | i, fuel + 1 =>
      match findNewRequest existingIds (polls i) with
      | some r => some r
      | none => waitLoop polls existingIds (i + 1) fuel

/-- `timeoutMs` of `waitForNewPairingRequest` (the value `autoConnect`
passes). -/
def pairingTimeoutMs : Nat := 60000

/-- `pollInterval` of `waitForNewPairingRequest`. -/
def pairingPollIntervalMs : Nat := 2000

/-- Number of polls the loop performs before the timeout elapses. -/
def pairingMaxPolls : Nat := pairingTimeoutMs / pairingPollIntervalMs

/-- `waitForNewPairingRequest` in part_014: poll until a request outside
`existingIds` appears or the 60-second window closes. -/
def waitForNewPairingRequest (polls : Nat → List PairingRequest)
    (existingIds : List String) : Option PairingRequest :=
  waitLoop polls existingIds 0 pairingMaxPolls

/-- The approval calls `autoConnect` issues (steps 2, 5 and 6 of part_014):
snapshot the baseline ids, wait for a request outside the baseline, and on
success issue exactly one `approveDevice` call for that request's id; on
timeout issue none. -/
def autoConnectApprovals (baseline : List PairingRequest)
    (polls : Nat → List PairingRequest) : List String :=
  match waitForNewPairingRequest polls (baseline.map (·.requestId)) with
  | some r => [r.requestId]
  | none => []

/-!
### Image build (`src/unnamed/part_013`)
-/

/-- The fixed image tag of `buildImage`. -/
def imageTag : String := "roboclaw/openclaw:local"

/-- The whitespace characters `String.prototype.trim` strips (the ones that
can occur in `id -u` output). -/
def jsWhitespace (c : Char) : Bool :=
  c == ' ' || c == '\n' || c == '\t' || c == '\r'

/-- JS `parseInt(s.trim(), 10)` as `verifyImage` uses it on the stdout of
`id -u`: strip surrounding whitespace, then parse the longest leading digit
run; no leading digit yields `NaN` (here `none`).  (A leading minus sign
would parse negative in JS; it yields `none` here, which compares against
the non-negative `uid` the same way.) -/
def jsParseIntDigits (s : String) : Option Nat :=
  let digits := (s.data.dropWhile jsWhitespace).takeWhile Char.isDigit
  if digits.isEmpty then none
  else some (digits.foldl (fun acc c => acc * 10 + (c.toNat - 48)) 0)

/-- `verifyImage` in part_013, applied to the observed result of
`docker run --rm --user uid:gid <image> id -u`: the command must exit 0 and
its stdout must parse to exactly the target uid. -/
def verifyImage (uid : Nat) (exitCode : Int) (stdout : String) : Bool :=
  exitCode == 0 && (jsParseIntDigits stdout == some uid)

/-- Remote observations `buildImage` consumes: whether the tagged image
exists before, the verification run on the pre-existing image, whether the
source repo exists (the clone/update exit code is not checked by the code),
the `docker build` exit code, whether the image exists after the build, and
the verification run on the freshly built image. -/
structure ImageBuildEnv where
  imageExists0 : Bool
  verifyExit0 : Int
  verifyStdout0 : String
  repoExists : Bool
  buildExit : Int
  imageExistsAfterBuild : Bool
  verifyExitBuilt : Int
  verifyStdoutBuilt : String
deriving DecidableEq, Repr

/-- Outcome of one `buildImage` call: the returned image reference (`none`
when an error is thrown, with `errMsg` the thrown message), whether
`docker rmi` was issued on the pre-existing image, and whether
`docker build` ran. -/
structure ImageBuildRun where
  result : Option String
  errMsg : Option String
  removedExisting : Bool
  ranBuild : Bool
deriving DecidableEq, Repr

/-- The clone-or-update-then-build-then-verify tail of `buildImage`
(everything after the existing-image check). -/
def buildImageTail (uid : Nat) (e : ImageBuildEnv) (removed : Bool) :
    ImageBuildRun :=
  if e.buildExit ≠ 0 then
    { result := none, errMsg := some "Docker image build failed"
      removedExisting := removed, ranBuild := true }
  else if !e.imageExistsAfterBuild then
    { result := none, errMsg := some "Image build completed but image not found"
      removedExisting := removed, ranBuild := true }
  else if !(verifyImage uid e.verifyExitBuilt e.verifyStdoutBuilt) then
    { result := none, errMsg := some "Built image failed verification"
      removedExisting := removed, ranBuild := true }
  else
    { result := some imageTag, errMsg := none
      removedExisting := removed, ranBuild := true }

/-- `buildImage` in part_013: trust an existing tagged image only when it
passes `verifyImage`; otherwise `docker rmi` it and rebuild; a fresh build is
re-verified before its tag is returned. -/
def buildImage (uid : Nat) (e : ImageBuildEnv) : ImageBuildRun :=
  if e.imageExists0 then
    if verifyImage uid e.verifyExit0 e.verifyStdout0 then
      { result := some imageTag, errMsg := none
        removedExisting := false, ranBuild := false }
    else buildImageTail uid e true
  else buildImageTail uid e false

/-!
### First-run interactive setup (`src/unnamed/part_012`)
-/

/-- Observations `runOnboarding` consumes: the completion-marker check
(`test -f ~/.openclaw/openclaw.json`) before and after the PTY session, the
skip flag, and whether the PTY session rejected. -/
structure OnboardEnv where
  markerBefore : Bool
  skipOnboard : Bool
  ptyRaises : Bool
  markerAfter : Bool
deriving DecidableEq, Repr

/-- `runOnboarding` in part_012: skip when the marker already exists or when
`--skip-onboard` was given (printing manual instructions, not failing);
otherwise run the interactive session — a rejection is swallowed by the
try/catch — then re-check the marker, raising exactly when it is still
absent. -/
def runOnboarding (e : OnboardEnv) : Except String Unit :=
  if e.markerBefore then .ok ()
  else if e.skipOnboard then .ok ()
  else
    let _sessionRaised := e.ptyRaises
    if e.markerAfter then .ok ()
    else .error "Onboarding failed - config file not found"

/-!
### Concrete inputs used by witnesses and counterexamples
-/

/-- A concrete metadata record. -/
def mdW : DeploymentMetadata :=
  { deployUser := "roboclaw", deployUid := 1000, deployGid := 1000
    deployHome := "/home/roboclaw", image := "roboclaw/openclaw:local"
    branch := "main" }

/-- A concrete fresh-run user. -/
def userW : UserInfo :=
  { username := "roboclaw", uid := 1000, gid := 1000
    home := "/home/roboclaw", inDockerGroup := true }

/-- A persisted state whose phases up to `c` are complete and whose later
phases are pending. -/
def stUpTo (c : Nat) : DeploymentState :=
  { instanceName := "inst", deploymentId := "id", startedAt := "t0"
    lastPhase := c
    phases := fun k => if k ≤ c then .complete else .pending
    metadata := mdW }

/-- A persisted state with exactly phase 4 complete (what a fresh run that
crashed right after phase 4 leaves behind). -/
def stOnly4 : DeploymentState :=
  { instanceName := "inst", deploymentId := "id", startedAt := "t0"
    lastPhase := 4
    phases := fun k => if k = 4 then .complete else .pending
    metadata := mdW }

/-- A deployment environment resuming from state `S` in which exactly the
phases in `fs` fail. -/
def envResume (S : DeploymentState) (fs : List Nat) : DeployEnv :=
  { remote0 := some S, force := false, fails := fun n => fs.contains n
    freshUser := userW, instanceName := "inst", branch := "main"
    newDeploymentId := "id2", newStartedAt := "t1" }

/-- A fresh deployment environment (no remote state) in which exactly the
phases in `fs` fail. -/
def envFresh (fs : List Nat) : DeployEnv :=
  { remote0 := none, force := false, fails := fun n => fs.contains n
    freshUser := userW, instanceName := "inst", branch := "main"
    newDeploymentId := "id1", newStartedAt := "t0" }

end RoboClaw

namespace RoboClaw

/-! ### Basic lemmas about the pipeline steps -/

theorem updateStateRemote_isSome {r : Option DeploymentState} {n : Nat}
    {s : PhaseStatus} (h : r.isSome = true) :
    (updateStateRemote r n s).isSome = true := by
  cases r with
  | none => simp at h
  | some S => rfl

theorem marked_update {r : Option DeploymentState} {m n : Nat}
    (h : Marked r m) : Marked (updateStateRemote r n .complete) m := by
  obtain ⟨S, rfl, hS⟩ := h
  by_cases hmn : m = n
  · exact ⟨_, rfl, by simp [updateStatePure, hmn]⟩
  · exact ⟨_, rfl, by simp [updateStateRemote, updateStatePure, hmn, hS]⟩

theorem marked_update_self {r : Option DeploymentState} {n : Nat}
    (h : r.isSome = true) : Marked (updateStateRemote r n .complete) n := by
  cases r with
  | none => simp at h
  | some S => exact ⟨_, rfl, by simp [updateStatePure]⟩

theorem stepPhase_halted_id (env : DeployEnv) (n : Nat) (rs : RunState)
    (h : rs.halted = true) : stepPhase env n rs = rs := by
  simp [stepPhase, h]

theorem rsAfter_frozen (env : DeployEnv) {k k' : Nat} (hk : k ≤ k')
    (h : (rsAfter env k).halted = true) : rsAfter env k' = rsAfter env k := by
  induction k', hk using Nat.le_induction with
  | base => rfl
  | succ j hj ih =>
      show stepPhase env (j + 1) (rsAfter env j) = rsAfter env k
      rw [ih, stepPhase_halted_id env (j + 1) _ h]

theorem rsAfter_halted_mono (env : DeployEnv) {k k' : Nat} (hk : k ≤ k')
    (h : (rsAfter env k).halted = true) : (rsAfter env k').halted = true := by
  rw [rsAfter_frozen env hk h]; exact h

theorem rsAfter_not_halted_of_le (env : DeployEnv) {k k' : Nat} (hk : k ≤ k')
    (h : (rsAfter env k').halted = false) : (rsAfter env k).halted = false := by
  by_contra hcon
  rw [rsAfter_halted_mono env hk (by revert hcon; cases (rsAfter env k).halted <;> simp)]
    at h
  cases h

theorem detect_some {r : Option DeploymentState} {S : DeploymentState}
    (h : detectPartialDeployment r = some S) : r = some S := by
  cases r with
  | none => cases h
  | some T =>
      unfold detectPartialDeployment at h
      have h' : (if ((phaseNums.any fun k => T.phases k == PhaseStatus.failed) ||
          (phaseNums.any fun k => T.phases k == PhaseStatus.pending)) = true
          then some T else none) = some S := h
      by_cases hc : ((phaseNums.any fun k => T.phases k == PhaseStatus.failed) ||
          (phaseNums.any fun k => T.phases k == PhaseStatus.pending)) = true
      · rw [if_pos hc] at h'; exact h'
      · rw [if_neg hc] at h'; cases h'

theorem existingOf_some {env : DeployEnv} {S : DeploymentState}
    (hE : existingOf env = some S) :
    env.remote0 = some S ∧ remoteInit env = some S ∧ env.force = false := by
  have hforce : env.force = false := by
    cases hfb : env.force with
    | false => rfl
    | true =>
        exfalso
        unfold existingOf at hE
        cases hd : detectPartialDeployment env.remote0 with
        | none => rw [hd] at hE; cases hE
        | some T => rw [hd, hfb] at hE; simp at hE
  have hdet : detectPartialDeployment env.remote0 = some S := by
    unfold existingOf at hE
    cases hd : detectPartialDeployment env.remote0 with
    | none => rw [hd] at hE; cases hE
    | some T =>
        rw [hd, hforce] at hE
        simp only [Bool.false_eq_true, if_false] at hE
        exact hE
  have hr0 : env.remote0 = some S := detect_some hdet
  refine ⟨hr0, ?_, hforce⟩
  unfold remoteInit
  rw [hdet, hforce]
  simp [hr0]

theorem stepGuarded_user (env : DeployEnv) (n : Nat) (pm : PersistMode)
    (rs : RunState) : (stepGuarded env n pm rs).user = rs.user := by
  unfold stepGuarded
  split
  · split
    · rfl
    · cases pm <;> cases hE : existingOf env <;> simp
  · rfl

theorem stepGuarded_halted (env : DeployEnv) (n : Nat) (pm : PersistMode)
    (rs : RunState) (h : rs.halted = false) :
    (stepGuarded env n pm rs).halted =
      (phaseNeedsRun (existingOf env) n && env.fails n) := by
  unfold stepGuarded
  cases hg : phaseNeedsRun (existingOf env) n with
  | false => simp [hg, h]
  | true =>
      cases hf : env.fails n with
      | true => simp [hg, hf]
      | false => cases pm <;> cases hE : existingOf env <;> simp [hg, hf, hE, h]

theorem stepGuarded_remote_of_fails (env : DeployEnv) (n : Nat)
    (pm : PersistMode) (rs : RunState) (hf : env.fails n = true) :
    (stepGuarded env n pm rs).remote = rs.remote := by
  unfold stepGuarded
  by_cases hg : phaseNeedsRun (existingOf env) n <;> simp [hg, hf]

theorem stepGuarded_skip (env : DeployEnv) (n : Nat) (pm : PersistMode)
    (rs : RunState) (hg : phaseNeedsRun (existingOf env) n = false) :
    stepGuarded env n pm rs = rs := by
  unfold stepGuarded
  simp [hg]

theorem stepGuarded_success (env : DeployEnv) (n : Nat) (rs : RunState)
    (hg : phaseNeedsRun (existingOf env) n = true) (hf : env.fails n = false) :
    stepGuarded env n .always rs =
      { rs with remote := updateStateRemote rs.remote n .complete } := by
  unfold stepGuarded
  simp [hg, hf]

theorem stepGuarded_success_resuming (env : DeployEnv) (n : Nat)
    (rs : RunState) {S : DeploymentState} (hE : existingOf env = some S)
    (hg : phaseNeedsRun (existingOf env) n = true) (hf : env.fails n = false) :
    stepGuarded env n .onlyIfResuming rs =
      { rs with remote := updateStateRemote rs.remote n .complete } := by
  unfold stepGuarded
  rw [hE] at hg ⊢
  simp [hg, hf]

theorem stepGuarded_remote_isSome (env : DeployEnv) (n : Nat)
    (pm : PersistMode) (rs : RunState) (h : rs.remote.isSome = true) :
    (stepGuarded env n pm rs).remote.isSome = true := by
  unfold stepGuarded
  split
  · split
    · exact h
    · cases pm <;> cases hE : existingOf env <;>
        simp [updateStateRemote_isSome h, h]
  · exact h

theorem stepGuarded_marked (env : DeployEnv) (n : Nat) (pm : PersistMode)
    (rs : RunState) {m : Nat} (h : Marked rs.remote m) :
    Marked (stepGuarded env n pm rs).remote m := by
  unfold stepGuarded
  split
  · split
    · exact h
    · cases pm with
      | onlyIfResuming =>
          cases hE : existingOf env with
          | none => simpa using h
          | some S => simpa using marked_update (n := n) h
      | always => simpa using marked_update (n := n) h
  · exact h

theorem stepUserPhase_halted (env : DeployEnv) (rs : RunState)
    (h : rs.halted = false) :
    (stepUserPhase env rs).halted =
      (phaseNeedsRun (existingOf env) 4 && env.fails 4) := by
  unfold stepUserPhase
  by_cases hg : phaseNeedsRun (existingOf env) 4 <;> simp only [hg, if_true,
    if_false, Bool.true_and, Bool.false_and]
  · by_cases hf : env.fails 4 <;> simp [hf, h]
  · cases hE : existingOf env <;> simp [h]

theorem stepUserPhase_remote_of_fails (env : DeployEnv) (rs : RunState)
    (hf : env.fails 4 = true) :
    (stepUserPhase env rs).remote = rs.remote := by
  unfold stepUserPhase
  by_cases hg : phaseNeedsRun (existingOf env) 4 <;> simp only [hg, if_true, if_false]
  · simp [hf]
  · cases hE : existingOf env <;> simp

theorem stepUserPhase_marked_resume (env : DeployEnv) (rs : RunState)
    {S : DeploymentState} (hE : existingOf env = some S) {m : Nat}
    (h : Marked rs.remote m) : Marked (stepUserPhase env rs).remote m := by
  unfold stepUserPhase
  rw [hE]
  by_cases hg : phaseNeedsRun (existingOf env) 4 <;> rw [hE] at hg <;>
    simp only [hg, if_true, if_false]
  · by_cases hf : env.fails 4 <;> simp only [hf, if_true, if_false]
    · exact h
    · simpa using marked_update (n := 4) h
  · exact h

theorem stepUserPhase_remote_isSome (env : DeployEnv) (rs : RunState)
    (h : rs.remote.isSome = true) :
    (stepUserPhase env rs).remote.isSome = true := by
  unfold stepUserPhase
  split
  · split
    · exact h
    · cases hE : existingOf env with
      | none => simp only [hE]; exact updateStateRemote_isSome rfl
      | some S => simp only [hE]; exact updateStateRemote_isSome h
  · cases hE : existingOf env <;> simp [h]

theorem stepUserPhase_success_resume (env : DeployEnv) (rs : RunState)
    {S : DeploymentState} (hE : existingOf env = some S)
    (hg : phaseNeedsRun (existingOf env) 4 = true) (hf : env.fails 4 = false) :
    stepUserPhase env rs =
      { rs with
        user := some env.freshUser
        remote := updateStateRemote rs.remote 4 .complete } := by
  unfold stepUserPhase
  rw [hE] at hg ⊢
  simp [hg, hf]

theorem stepUserPhase_success_fresh (env : DeployEnv) (rs : RunState)
    (hE : existingOf env = none) (hf : env.fails 4 = false) :
    stepUserPhase env rs =
      { rs with
        user := some env.freshUser
        remote := updateStateRemote
          (some (createStateFile env.instanceName env.newDeploymentId
            env.newStartedAt (metadataForCreate env))) 4 .complete } := by
  unfold stepUserPhase
  rw [hE]
  simp [phaseNeedsRun, hf]

theorem stepUserPhase_skip (env : DeployEnv) (rs : RunState)
    {S : DeploymentState} (hE : existingOf env = some S)
    (hg : phaseNeedsRun (existingOf env) 4 = false) :
    stepUserPhase env rs =
      { rs with user := some (userFromMetadata S.metadata) } := by
  unfold stepUserPhase
  rw [hE] at hg ⊢
  simp [hg]

/-! ### Lemmas about whole phase blocks (`stepBody`) -/

theorem stepBody_halted (env : DeployEnv) (n : Nat) (rs : RunState)
    (h : rs.halted = false) (hn : n ≤ 10) :
    (stepBody env n rs).halted = (execCond env n && env.fails n) := by
  interval_cases n
  · exact h
  · exact h
  · exact stepGuarded_halted env 2 .onlyIfResuming rs h
  · exact stepGuarded_halted env 3 .onlyIfResuming rs h
  · exact stepUserPhase_halted env rs h
  · exact stepGuarded_halted env 5 .always rs h
  · exact stepGuarded_halted env 6 .always rs h
  · exact stepGuarded_halted env 7 .always rs h
  · exact stepGuarded_halted env 8 .always rs h
  · by_cases hf : env.fails 9 = true <;> simp [stepBody, execCond, hf, h]
  · by_cases hf : env.fails 10 = true <;> simp [stepBody, execCond, hf, h]

theorem stepBody_remote_of_fails (env : DeployEnv) (n : Nat) (rs : RunState)
    (hf : env.fails n = true) (hn : n ≤ 10) :
    (stepBody env n rs).remote = rs.remote := by
  interval_cases n
  · rfl
  · rfl
  · exact stepGuarded_remote_of_fails env 2 .onlyIfResuming rs hf
  · exact stepGuarded_remote_of_fails env 3 .onlyIfResuming rs hf
  · exact stepUserPhase_remote_of_fails env rs hf
  · exact stepGuarded_remote_of_fails env 5 .always rs hf
  · exact stepGuarded_remote_of_fails env 6 .always rs hf
  · exact stepGuarded_remote_of_fails env 7 .always rs hf
  · exact stepGuarded_remote_of_fails env 8 .always rs hf
  · simp [stepBody, hf]
  · simp [stepBody, hf]

theorem stepBody_user (env : DeployEnv) (n : Nat) (rs : RunState)
    (hn4 : n ≠ 4) (hn : n ≤ 10) : (stepBody env n rs).user = rs.user := by
  interval_cases n
  · rfl
  · rfl
  · exact stepGuarded_user env 2 .onlyIfResuming rs
  · exact stepGuarded_user env 3 .onlyIfResuming rs
  · exact absurd rfl hn4
  · exact stepGuarded_user env 5 .always rs
  · exact stepGuarded_user env 6 .always rs
  · exact stepGuarded_user env 7 .always rs
  · exact stepGuarded_user env 8 .always rs
  · by_cases hf : env.fails 9 = true <;> simp [stepBody, hf]
  · by_cases hf : env.fails 10 = true <;> simp [stepBody, hf]

theorem stepBody_marked (env : DeployEnv) (n : Nat) (rs : RunState) {m : Nat}
    (hm : m < n) (h9 : n ≤ 9)
    (hres : existingOf env = none → 4 ≤ m) (h : Marked rs.remote m) :
    Marked (stepBody env n rs).remote m := by
  have hn1 : 1 ≤ n := by omega
  interval_cases n
  · exact h
  · exact stepGuarded_marked env 2 .onlyIfResuming rs h
  · exact stepGuarded_marked env 3 .onlyIfResuming rs h
  · cases hE : existingOf env with
    | some S => exact stepUserPhase_marked_resume env rs hE h
    | none => exact absurd (hres hE) (by omega)
  · exact stepGuarded_marked env 5 .always rs h
  · exact stepGuarded_marked env 6 .always rs h
  · exact stepGuarded_marked env 7 .always rs h
  · exact stepGuarded_marked env 8 .always rs h
  · by_cases hf : env.fails 9 = true <;> simp [stepBody, hf] <;> exact h

theorem stepBody_remote_isSome_resume (env : DeployEnv) (n : Nat)
    (rs : RunState) {S : DeploymentState} (hE : existingOf env = some S)
    (hn : n ≤ 9) (h : rs.remote.isSome = true) :
    (stepBody env n rs).remote.isSome = true := by
  interval_cases n
  · exact h
  · exact h
  · exact stepGuarded_remote_isSome env 2 .onlyIfResuming rs h
  · exact stepGuarded_remote_isSome env 3 .onlyIfResuming rs h
  · exact stepUserPhase_remote_isSome env rs h
  · exact stepGuarded_remote_isSome env 5 .always rs h
  · exact stepGuarded_remote_isSome env 6 .always rs h
  · exact stepGuarded_remote_isSome env 7 .always rs h
  · exact stepGuarded_remote_isSome env 8 .always rs h
  · by_cases hf : env.fails 9 = true <;> simp [stepBody, hf, h]

theorem stepGuarded_isSome_fresh (env : DeployEnv) (n : Nat) (rs : RunState)
    (hE : existingOf env = none) (hrs : rs.halted = false)
    (hh : (stepGuarded env n .always rs).halted = false)
    (h : rs.remote.isSome = true) :
    (stepGuarded env n .always rs).remote.isSome = true := by
  have hg : phaseNeedsRun (existingOf env) n = true := by rw [hE]; rfl
  cases hf : env.fails n with
  | true =>
      exfalso
      have h2 := stepGuarded_halted env n .always rs hrs
      rw [hg, hf] at h2
      rw [h2] at hh
      cases hh
  | false =>
      rw [stepGuarded_success env n rs hg hf]
      exact updateStateRemote_isSome h

theorem stepBody_remote_isSome_fresh (env : DeployEnv) (n : Nat)
    (rs : RunState) (hE : existingOf env = none) (h5 : 5 ≤ n) (h9 : n ≤ 9)
    (hrs : rs.halted = false) (hh : (stepBody env n rs).halted = false)
    (h : rs.remote.isSome = true) :
    (stepBody env n rs).remote.isSome = true := by
  interval_cases n
  · exact stepGuarded_isSome_fresh env 5 rs hE hrs hh h
  · exact stepGuarded_isSome_fresh env 6 rs hE hrs hh h
  · exact stepGuarded_isSome_fresh env 7 rs hE hrs hh h
  · exact stepGuarded_isSome_fresh env 8 rs hE hrs hh h
  · by_cases hf : env.fails 9 = true <;> simp [stepBody, hf, h]

theorem stepBody_skip (env : DeployEnv) (n : Nat) (rs : RunState)
    {S : DeploymentState} (h2 : 2 ≤ n) (h8 : n ≤ 8)
    (hE : existingOf env = some S) (hc : S.phases n = .complete) :
    (stepBody env n rs).halted = rs.halted ∧
      (stepBody env n rs).remote = rs.remote := by
  have hg : phaseNeedsRun (existingOf env) n = false := by
    rw [hE]; simp [phaseNeedsRun, isPhaseComplete, hc]
  interval_cases n
  · exact ⟨congrArg RunState.halted (stepGuarded_skip env 2 .onlyIfResuming rs hg),
      congrArg RunState.remote (stepGuarded_skip env 2 .onlyIfResuming rs hg)⟩
  · exact ⟨congrArg RunState.halted (stepGuarded_skip env 3 .onlyIfResuming rs hg),
      congrArg RunState.remote (stepGuarded_skip env 3 .onlyIfResuming rs hg)⟩
  · constructor
    · show (stepUserPhase env rs).halted = rs.halted
      rw [stepUserPhase_skip env rs hE hg]
    · show (stepUserPhase env rs).remote = rs.remote
      rw [stepUserPhase_skip env rs hE hg]
  · exact ⟨congrArg RunState.halted (stepGuarded_skip env 5 .always rs hg),
      congrArg RunState.remote (stepGuarded_skip env 5 .always rs hg)⟩
  · exact ⟨congrArg RunState.halted (stepGuarded_skip env 6 .always rs hg),
      congrArg RunState.remote (stepGuarded_skip env 6 .always rs hg)⟩
  · exact ⟨congrArg RunState.halted (stepGuarded_skip env 7 .always rs hg),
      congrArg RunState.remote (stepGuarded_skip env 7 .always rs hg)⟩
  · exact ⟨congrArg RunState.halted (stepGuarded_skip env 8 .always rs hg),
      congrArg RunState.remote (stepGuarded_skip env 8 .always rs hg)⟩

/-! ### Run-level invariants (`rsAfter`) -/

theorem rsAfter_step_not_halted (env : DeployEnv) (k : Nat)
    (h : (rsAfter env k).halted = false) :
    rsAfter env (k + 1) = stepBody env (k + 1) (rsAfter env k) := by
  show stepPhase env (k + 1) (rsAfter env k) = _
  unfold stepPhase
  rw [h]
  simp

theorem rsAfter_remote_isSome_resume (env : DeployEnv) {S : DeploymentState}
    (hE : existingOf env = some S) :
    ∀ k, k ≤ 9 → ((rsAfter env k).remote).isSome = true := by
  intro k
  induction k with
  | zero =>
      intro _
      show (remoteInit env).isSome = true
      rw [(existingOf_some hE).2.1]
      rfl
  | succ k ih =>
      intro hk
      have ihk := ih (by omega)
      by_cases hh : (rsAfter env k).halted = true
      · rw [show rsAfter env (k + 1) = stepPhase env (k + 1) (rsAfter env k)
            from rfl, stepPhase_halted_id env _ _ hh]
        exact ihk
      · have hh' : (rsAfter env k).halted = false := by
          revert hh; cases (rsAfter env k).halted <;> simp
        rw [rsAfter_step_not_halted env k hh']
        exact stepBody_remote_isSome_resume env (k + 1) _ hE (by omega) ihk

theorem rsAfter_remote_isSome_fresh (env : DeployEnv)
    (hE : existingOf env = none) :
    ∀ k, 4 ≤ k → k ≤ 9 → (rsAfter env k).halted = false →
      (rsAfter env k).remote.isSome = true := by
  intro k hk4
  induction k, hk4 using Nat.le_induction with
  | base =>
      intro _ hh
      have h3 : (rsAfter env 3).halted = false :=
        rsAfter_not_halted_of_le env (by omega) hh
      rw [rsAfter_step_not_halted env 3 h3] at hh ⊢
      cases hf : env.fails 4 with
      | true =>
          exfalso
          have h2 := stepUserPhase_halted env (rsAfter env 3) h3
          rw [hE] at h2
          have hh' : (stepUserPhase env (rsAfter env 3)).halted = false := hh
          rw [h2, hf] at hh'
          cases hh'
      | false =>
          show (stepUserPhase env (rsAfter env 3)).remote.isSome = true
          rw [stepUserPhase_success_fresh env _ hE hf]
          exact updateStateRemote_isSome (Option.isSome_some)
  | succ k hk ih =>
      intro h9 hh
      have hhk : (rsAfter env k).halted = false :=
        rsAfter_not_halted_of_le env (by omega) hh
      have ihk := ih (by omega) hhk
      rw [rsAfter_step_not_halted env k hhk] at hh ⊢
      exact stepBody_remote_isSome_fresh env (k + 1) _ hE (by omega) (by omega)
        hhk hh ihk

theorem marked_chain (env : DeployEnv) {m k k' : Nat} (hkk : k ≤ k')
    (h9 : k' ≤ 9) (hmk : m ≤ k) (hres : existingOf env = none → 4 ≤ m)
    (h : Marked (rsAfter env k).remote m) :
    Marked (rsAfter env k').remote m := by
  induction k', hkk using Nat.le_induction with
  | base => exact h
  | succ j hj ih =>
      have hij := ih (by omega)
      by_cases hh : (rsAfter env j).halted = true
      · rw [show rsAfter env (j + 1) = stepPhase env (j + 1) (rsAfter env j)
            from rfl, stepPhase_halted_id env _ _ hh]
        exact hij
      · have hh' : (rsAfter env j).halted = false := by
          revert hh; cases (rsAfter env j).halted <;> simp
        rw [rsAfter_step_not_halted env j hh']
        exact stepBody_marked env (j + 1) _ (by omega) (by omega) hres hij

theorem executes_halted (env : DeployEnv) (n : Nat)
    (hx : executesPhase env n = true) :
    (rsAfter env (n - 1)).halted = false := by
  unfold executesPhase at hx
  cases hh : (rsAfter env (n - 1)).halted
  · rfl
  · rw [hh] at hx; simp at hx

theorem executesPhase_eq_guard (env : DeployEnv) (n : Nat) (h2 : 2 ≤ n)
    (h8 : n ≤ 8) (hh : (rsAfter env (n - 1)).halted = false) :
    executesPhase env n = phaseNeedsRun (existingOf env) n := by
  unfold executesPhase
  rw [hh]
  interval_cases n <;> rfl

theorem execCond_eq_guard (env : DeployEnv) (n : Nat) (h2 : 2 ≤ n)
    (h8 : n ≤ 8) : execCond env n = phaseNeedsRun (existingOf env) n := by
  interval_cases n <;> rfl

theorem marked_establish (env : DeployEnv) (n : Nat) (h2 : 2 ≤ n) (h8 : n ≤ 8)
    (hres : existingOf env = none → 4 ≤ n)
    (hx : executesPhase env n = true) (hf : env.fails n = false) :
    Marked (rsAfter env n).remote n := by
  have hh : (rsAfter env (n - 1)).halted = false := executes_halted env n hx
  have hguard : phaseNeedsRun (existingOf env) n = true := by
    rw [← executesPhase_eq_guard env n h2 h8 hh]
    exact hx
  interval_cases n
  · cases hE : existingOf env with
    | none => exact absurd (hres hE) (by omega)
    | some S =>
        rw [rsAfter_step_not_halted env 1 hh]
        show Marked (stepGuarded env 2 .onlyIfResuming (rsAfter env 1)).remote 2
        rw [stepGuarded_success_resuming env 2 _ hE hguard hf]
        exact marked_update_self (rsAfter_remote_isSome_resume env hE 1 (by omega))
  · cases hE : existingOf env with
    | none => exact absurd (hres hE) (by omega)
    | some S =>
        rw [rsAfter_step_not_halted env 2 hh]
        show Marked (stepGuarded env 3 .onlyIfResuming (rsAfter env 2)).remote 3
        rw [stepGuarded_success_resuming env 3 _ hE hguard hf]
        exact marked_update_self (rsAfter_remote_isSome_resume env hE 2 (by omega))
  · rw [rsAfter_step_not_halted env 3 hh]
    show Marked (stepUserPhase env (rsAfter env 3)).remote 4
    cases hE : existingOf env with
    | some S =>
        rw [stepUserPhase_success_resume env _ hE hguard hf]
        exact marked_update_self (rsAfter_remote_isSome_resume env hE 3 (by omega))
    | none =>
        rw [stepUserPhase_success_fresh env _ hE hf]
        exact marked_update_self Option.isSome_some
  · rw [rsAfter_step_not_halted env 4 hh]
    show Marked (stepGuarded env 5 .always (rsAfter env 4)).remote 5
    rw [stepGuarded_success env 5 _ hguard hf]
    refine marked_update_self ?_
    cases hE : existingOf env with
    | some S => exact rsAfter_remote_isSome_resume env hE 4 (by omega)
    | none => exact rsAfter_remote_isSome_fresh env hE 4 (by omega) (by omega) hh
  · rw [rsAfter_step_not_halted env 5 hh]
    show Marked (stepGuarded env 6 .always (rsAfter env 5)).remote 6
    rw [stepGuarded_success env 6 _ hguard hf]
    refine marked_update_self ?_
    cases hE : existingOf env with
    | some S => exact rsAfter_remote_isSome_resume env hE 5 (by omega)
    | none => exact rsAfter_remote_isSome_fresh env hE 5 (by omega) (by omega) hh
  · rw [rsAfter_step_not_halted env 6 hh]
    show Marked (stepGuarded env 7 .always (rsAfter env 6)).remote 7
    rw [stepGuarded_success env 7 _ hguard hf]
    refine marked_update_self ?_
    cases hE : existingOf env with
    | some S => exact rsAfter_remote_isSome_resume env hE 6 (by omega)
    | none => exact rsAfter_remote_isSome_fresh env hE 6 (by omega) (by omega) hh
  · rw [rsAfter_step_not_halted env 7 hh]
    show Marked (stepGuarded env 8 .always (rsAfter env 7)).remote 8
    rw [stepGuarded_success env 8 _ hguard hf]
    refine marked_update_self ?_
    cases hE : existingOf env with
    | some S => exact rsAfter_remote_isSome_resume env hE 7 (by omega)
    | none => exact rsAfter_remote_isSome_fresh env hE 7 (by omega) (by omega) hh

/-! ### Claim C10 — `updateState` is a frame-preserving single-key write -/

/-- C10: for every loadable persisted state `S` and phase `n` with status `s`,
`updateState` rewrites the remote file to exactly `S` with `phases[n] = s` and
`lastPhase = n`; the instance name, deployment id, start timestamp, metadata
and every other phase's status are unchanged. -/
theorem updateState_frame (S : DeploymentState) (n : Nat) (s : PhaseStatus) :
    updateStateRemote (some S) n s = some (updateStatePure S n s) ∧
    (updateStatePure S n s).instanceName = S.instanceName ∧
    (updateStatePure S n s).deploymentId = S.deploymentId ∧
    (updateStatePure S n s).startedAt = S.startedAt ∧
    (updateStatePure S n s).metadata = S.metadata ∧
    (updateStatePure S n s).phases n = s ∧
    (updateStatePure S n s).lastPhase = n ∧
    ∀ k, k ≠ n → (updateStatePure S n s).phases k = S.phases k := by
  refine ⟨rfl, rfl, rfl, rfl, rfl, by simp [updateStatePure], rfl, ?_⟩
  intro k hk
  simp [updateStatePure, hk]

/-- Witness for C10 at a concrete state: updating phase 3 to `'failed'`
leaves phase 2's status untouched. -/
theorem updateState_frame_witness :
    (updateStatePure (createStateFile "i" "d" "t" mdW) 3 .failed).phases 2 =
      (createStateFile "i" "d" "t" mdW).phases 2 :=
  (updateState_frame (createStateFile "i" "d" "t" mdW) 3 .failed).2.2.2.2.2.2.2
    2 (by decide)

/-! ### Claim C6 — unreadable or corrupt state loads as "no prior state" -/

/-- C6: whenever the remote state-file read fails (the exec raises or exits
nonzero) or its content does not parse as JSON, `loadState` returns `null`
instead of raising, and `detectPartialDeployment` consequently reports no
partial deployment, so the run proceeds fresh. -/
theorem loadState_bad_input_is_fresh
    (parse : String → Except Unit DeploymentState) (o : CatOutcome)
    (h : o = .raised ∨
      ∃ c out, o = .result c out ∧ (c ≠ 0 ∨ parse out = .error ())) :
    loadState parse o = none ∧
      detectPartialDeployment (loadState parse o) = none := by
  have hload : loadState parse o = none := by
    rcases h with h | ⟨c, out, rfl, hc | hp⟩
    · subst h; rfl
    · simp [loadState, loadStateBody, hc]
    · by_cases hc : c = 0
      · simp [loadState, loadStateBody, hc, hp, Except.map]
      · simp [loadState, loadStateBody, hc]
  exact ⟨hload, by rw [hload]; rfl⟩

/-- Witness for C6: a read that exits 1 (file absent) yields no prior state. -/
theorem loadState_bad_input_is_fresh_witness :
    loadState (fun _ => .error ()) (.result 1 "") = none ∧
      detectPartialDeployment
        (loadState (fun _ => .error ()) (.result 1 "")) = none :=
  loadState_bad_input_is_fresh (fun _ => .error ()) (.result 1 "")
    (Or.inr ⟨1, "", rfl, Or.inl (by decide)⟩)

/-! ### Claim C3 — exit codes of the failure classes -/

/-! ### Claim C1 — completed phases are persisted before the next phase -/

/-- C1 as stated is false on the code: on a fresh run (no prior state) phase
2's completion is not persisted before phase 3 begins — indeed no state file
exists at all until phase 4 creates one — and on any run phase 9's completion
is never recorded (its block has no `updateState` call), as the persisted
state still shows phase 9 `'pending'` when phase 10's action begins. -/
theorem c1_phasePersist_counterexample :
    executesPhase (envFresh []) 2 = true ∧
    (envFresh []).fails 2 = false ∧
    executesPhase (envFresh []) 3 = true ∧
    (rsAfter (envFresh []) 2).remote = none ∧
    executesPhase (envResume (stUpTo 8) []) 9 = true ∧
    (envResume (stUpTo 8) []).fails 9 = false ∧
    executesPhase (envResume (stUpTo 8) []) 10 = true ∧
    ((rsAfter (envResume (stUpTo 8) []) 9).remote.map fun S => S.phases 9) =
      some .pending :=
  ⟨rfl, rfl, rfl, rfl, rfl, rfl, rfl, rfl⟩

/-- C1 amended: for the guarded phases `n ∈ 2..8`, whenever phase `n`'s
action executes and succeeds **and** the state file is available to record it
(always from phase 4 onward; for phases 2–3 exactly when a prior state was
detected), the remote persisted state records phase `n` as `'complete'`
before any later phase `m`'s action begins.  On a fresh run phases 2–3 go
unrecorded until `createState`, and phase 9 is never recorded. -/
theorem phaseCompletion_persisted_before_next (env : DeployEnv) (n m : Nat)
    (h2 : 2 ≤ n) (h8 : n ≤ 8)
    (hpresent : 4 ≤ n ∨ (existingOf env).isSome = true)
    (hx : executesPhase env n = true) (hf : env.fails n = false)
    (hnm : n < m) (hm10 : m ≤ 10) (hxm : executesPhase env m = true) :
    ∃ S', (rsAfter env (m - 1)).remote = some S' ∧ S'.phases n = .complete := by
  have hres : existingOf env = none → 4 ≤ n := by
    intro hE
    rcases hpresent with h | h
    · exact h
    · rw [hE] at h; cases h
  exact marked_chain env (by omega) (by omega) (Nat.le_refl n) hres
    (marked_establish env n h2 h8 hres hx hf)

/-- Witness for the amended C1: resuming from a state with only phase 4
complete, phase 2 runs, succeeds, and is recorded `'complete'` in the state
observed when phase 5 begins. -/
theorem phaseCompletion_persisted_before_next_witness :
    ∃ S', (rsAfter (envResume stOnly4 []) 4).remote = some S' ∧
      S'.phases 2 = .complete :=
  phaseCompletion_persisted_before_next (envResume stOnly4 []) 2 5
    (by omega) (by omega) (Or.inr rfl) rfl rfl (by omega) (by omega) rfl

/-! ### Claim C2 — failure handling of the phase pipeline -/

/-- C2 as stated is false on the code: when phase 5's action raises, the
catch block exits without writing anything — the persisted state still shows
phase 5 `'pending'`, never `'failed'`. -/
theorem c2_markFailed_counterexample :
    executesPhase (envResume stOnly4 [5]) 5 = true ∧
    (envResume stOnly4 [5]).fails 5 = true ∧
    ((rsAfter (envResume stOnly4 [5]) 10).remote.map fun S => S.phases 5) =
      some .pending ∧
    ((rsAfter (envResume stOnly4 [5]) 10).remote.map fun S => S.phases 5) ≠
      some .failed :=
  ⟨rfl, rfl, rfl, by decide⟩

/-- C2 amended: when phase `n`'s action raises, the error propagates without
running any further phase — but the failure is **not** persisted: the state
file is left exactly as it was when phase `n` started, so the phase's status
is never set to `'failed'` (it stays at its last persisted value, normally
`'pending'`, which is what makes the phase retryable on resume). -/
theorem phaseFailure_halts_without_persisting (env : DeployEnv) (n : Nat)
    (h2 : 2 ≤ n) (h10 : n ≤ 10)
    (hx : executesPhase env n = true) (hf : env.fails n = true) :
    (∀ m, n < m → executesPhase env m = false) ∧
    (rsAfter env 10).remote = (rsAfter env (n - 1)).remote := by
  have hh : (rsAfter env (n - 1)).halted = false := executes_halted env n hx
  have hcond : execCond env n = true := by
    unfold executesPhase at hx
    rw [hh] at hx
    simp only [Bool.not_false, Bool.true_and] at hx
    interval_cases n <;> exact hx
  obtain ⟨n', rfl⟩ : ∃ n', n = n' + 1 := ⟨n - 1, by omega⟩
  have hh' : (rsAfter env n').halted = false := hh
  have hstep : (rsAfter env (n' + 1)).halted = true := by
    rw [rsAfter_step_not_halted env n' hh',
      stepBody_halted env (n' + 1) _ hh' (by omega), hcond, hf]
    rfl
  refine ⟨?_, ?_⟩
  · intro m hm
    have hmh : (rsAfter env (m - 1)).halted = true :=
      rsAfter_halted_mono env (by omega) hstep
    unfold executesPhase
    rw [hmh]
    rfl
  · rw [rsAfter_frozen env (show n' + 1 ≤ 10 by omega) hstep,
      rsAfter_step_not_halted env n' hh']
    exact stepBody_remote_of_fails env (n' + 1) _ hf (by omega)

/-- Witness for the amended C2: with phase 5 failing on a resumed run, phase
6 never executes and the final state file equals the one phase 5 started
with. -/
theorem phaseFailure_halts_without_persisting_witness :
    executesPhase (envResume stOnly4 [5]) 6 = false ∧
    (rsAfter (envResume stOnly4 [5]) 10).remote =
      (rsAfter (envResume stOnly4 [5]) 4).remote := by
  have h := phaseFailure_halts_without_persisting (envResume stOnly4 [5]) 5
    (by omega) (by omega) rfl rfl
  exact ⟨h.1 6 (by omega), h.2⟩

/-! ### Claim C4 — resume skips exactly the recorded-complete phases -/

/-- C4 as stated is false on the code: with a prior state present the
execute-iff-not-complete equivalence holds only for phases 2–8 — phase 9
executes although the state marks it `'complete'` — and after a fresh run's
failure at phase 5 the re-run does not skip every earlier phase: phase 2
executes again, because the state left behind records only phase 4 complete
(phases 2–3 were never persisted on the fresh run). -/
theorem c4_executeIff_counterexample :
    executesPhase (envResume (stUpTo 9) []) 9 = true ∧
    (stUpTo 9).phases 9 = .complete ∧
    executesPhase (envResume stOnly4 []) 2 = true ∧
    stOnly4.phases 2 = .pending ∧
    stOnly4.phases 4 = .complete :=
  ⟨rfl, rfl, rfl, rfl, rfl⟩

/-- C4 amended: with a prior persisted state `S` present, a phase `n ∈ 2..8`
reached by the run executes its action body iff `S` does not mark it
`'complete'` (phases 1, 9 and 10 execute unconditionally); and forcing a
phase `P ∈ 2..8` to fail re-runs exactly `P` when every phase before `P` is
recorded complete: those phases are skipped, `P` executes, and nothing after
`P` runs. -/
theorem resume_executes_iff_not_complete :
    (∀ (env : DeployEnv) (S : DeploymentState) (n : Nat),
      existingOf env = some S → 2 ≤ n → n ≤ 8 →
      (rsAfter env (n - 1)).halted = false →
      (executesPhase env n = true ↔ ¬S.phases n = .complete)) ∧
    (∀ (env : DeployEnv) (S : DeploymentState) (P : Nat),
      existingOf env = some S → 2 ≤ P → P ≤ 8 →
      (∀ k, 2 ≤ k → k < P → S.phases k = .complete) →
      S.phases P ≠ .complete → env.fails P = true →
      (∀ k, 2 ≤ k → k < P → executesPhase env k = false) ∧
      executesPhase env P = true ∧
      (∀ m, P < m → executesPhase env m = false)) := by
  constructor
  · intro env S n hE h2 h8 hh
    rw [executesPhase_eq_guard env n h2 h8 hh, hE]
    simp [phaseNeedsRun, isPhaseComplete]
  · intro env S P hE h2 h8 hcomp hPnc hPf
    have hpre : ∀ k, k < P → (rsAfter env k).halted = false := by
      intro k
      induction k with
      | zero => intro _; rfl
      | succ k ih =>
          intro hk
          have ihk := ih (by omega)
          rw [rsAfter_step_not_halted env k ihk]
          by_cases hk0 : k = 0
          · subst hk0; exact ihk
          · have h2' : 2 ≤ k + 1 := by omega
            rw [(stepBody_skip env (k + 1) _ h2' (by omega) hE
              (hcomp (k + 1) h2' hk)).1]
            exact ihk
    have hexP : executesPhase env P = true := by
      rw [executesPhase_eq_guard env P h2 h8 (hpre (P - 1) (by omega)), hE]
      simp [phaseNeedsRun, isPhaseComplete, hPnc]
    have hstop : (rsAfter env P).halted = true := by
      obtain ⟨P', rfl⟩ : ∃ P', P = P' + 1 := ⟨P - 1, by omega⟩
      have hhp : (rsAfter env P').halted = false := hpre P' (by omega)
      rw [rsAfter_step_not_halted env P' hhp,
        stepBody_halted env (P' + 1) _ hhp (by omega),
        execCond_eq_guard env (P' + 1) h2 h8, hE]
      simp [phaseNeedsRun, isPhaseComplete, hPnc, hPf]
    refine ⟨?_, hexP, ?_⟩
    · intro k hk2 hkP
      rw [executesPhase_eq_guard env k hk2 (by omega)
        (hpre (k - 1) (by omega)), hE]
      simp [phaseNeedsRun, isPhaseComplete, hcomp k hk2 hkP]
    · intro m hm
      have hmh : (rsAfter env (m - 1)).halted = true :=
        rsAfter_halted_mono env (by omega) hstop
      unfold executesPhase
      rw [hmh]
      rfl

/-- Witness for the amended C4: resuming from a state with phases 1–4
complete, phase 5 executes (pending) per part one; and with phase 5 forced to
fail, phase 2 is skipped, phase 5 runs, phase 6 does not. -/
theorem resume_executes_iff_not_complete_witness :
    (executesPhase (envResume (stUpTo 4) []) 5 = true ↔
      ¬(stUpTo 4).phases 5 = .complete) ∧
    executesPhase (envResume (stUpTo 4) [5]) 2 = false ∧
    executesPhase (envResume (stUpTo 4) [5]) 5 = true ∧
    executesPhase (envResume (stUpTo 4) [5]) 6 = false := by
  have h1 := resume_executes_iff_not_complete.1 (envResume (stUpTo 4) [])
    (stUpTo 4) 5 rfl (by omega) (by omega) rfl
  have h2 := resume_executes_iff_not_complete.2 (envResume (stUpTo 4) [5])
    (stUpTo 4) 5 rfl (by omega) (by omega)
    (by intro k hk2 hk5; interval_cases k <;> rfl)
    (by decide) rfl
  exact ⟨h1, h2.1 2 (by omega) (by omega), h2.2.1, h2.2.2 6 (by omega)⟩

/-! ### Claim C5 — resumed runs reuse the persisted principal identity -/

/-- C5: when a resumed invocation finds phase 4 `'complete'` in the persisted
state, phase 4's action (`createDeploymentUser`, the only remote
recomputation of the principal) does not execute, and from phase 4 on the
`deployUser` threaded to every later phase is exactly the persisted
metadata's username/uid/gid/home. -/
theorem resume_reuses_persisted_principal (env : DeployEnv)
    (S : DeploymentState) (hE : existingOf env = some S)
    (h4 : S.phases 4 = .complete) (hh : (rsAfter env 3).halted = false) :
    executesPhase env 4 = false ∧
    ∀ k, 4 ≤ k → k ≤ 10 →
      (rsAfter env k).user =
        some { username := S.metadata.deployUser, uid := S.metadata.deployUid
               gid := S.metadata.deployGid, home := S.metadata.deployHome
               inDockerGroup := true } := by
  have hg : phaseNeedsRun (existingOf env) 4 = false := by
    rw [hE]; simp [phaseNeedsRun, isPhaseComplete, h4]
  constructor
  · rw [executesPhase_eq_guard env 4 (by omega) (by omega) hh]
    exact hg
  · intro k hk4
    induction k, hk4 using Nat.le_induction with
    | base =>
        intro _
        rw [rsAfter_step_not_halted env 3 hh]
        show (stepUserPhase env (rsAfter env 3)).user = _
        rw [stepUserPhase_skip env _ hE hg]
        rfl
    | succ k hk ih =>
        intro hk10
        have ihk := ih (by omega)
        by_cases hhk : (rsAfter env k).halted = true
        · rw [show rsAfter env (k + 1) = stepPhase env (k + 1) (rsAfter env k)
            from rfl, stepPhase_halted_id env _ _ hhk]
          exact ihk
        · have hh' : (rsAfter env k).halted = false := by
            revert hhk; cases (rsAfter env k).halted <;> simp
          rw [rsAfter_step_not_halted env k hh',
            stepBody_user env (k + 1) _ (by omega) (by omega)]
          exact ihk

/-- Witness for C5: resuming from a state with phases 1–4 complete, phase 4
is skipped and the `deployUser` seen at phase 7 is the persisted identity. -/
theorem resume_reuses_persisted_principal_witness :
    executesPhase (envResume (stUpTo 4) []) 4 = false ∧
    (rsAfter (envResume (stUpTo 4) []) 7).user =
      some { username := "roboclaw", uid := 1000, gid := 1000
             home := "/home/roboclaw", inDockerGroup := true } := by
  have h := resume_reuses_persisted_principal (envResume (stUpTo 4) [])
    (stUpTo 4) rfl rfl rfl
  exact ⟨h.1, h.2 7 (by omega) (by omega)⟩

/-- C3 fails on the code: the failure classes do **not** get pairwise distinct
exit codes — every class exits with code 1 except the privilege failure
(code 2).  In particular package-install failure and engine-install failure
(and connection failure) share exit code 1. -/
theorem exitCodes_not_distinct :
    exitCodeFor .packageInstallFailure = exitCodeFor .engineInstallFailure ∧
    exitCodeFor .connectionFailure = exitCodeFor .packageInstallFailure ∧
    exitCodeFor .invalidArgs = exitCodeFor .artifactFailure ∧
    exitCodeFor .privilegeFailure ≠ exitCodeFor .connectionFailure ∧
    ∀ c, c ≠ FailureClass.privilegeFailure → exitCodeFor c = 1 := by
  refine ⟨rfl, rfl, rfl, by decide, ?_⟩
  intro c hc
  cases c <;> first | rfl | exact absurd rfl hc

/-! ### Claim C7 — pairing automation approves exactly one new request -/

theorem findNewRequest_some {ids : List String} {reqs : List PairingRequest}
    {r : PairingRequest} (h : findNewRequest ids reqs = some r) :
    r ∈ reqs ∧ ids.contains r.requestId = false := by
  unfold findNewRequest at h
  refine ⟨List.mem_of_find?_eq_some h, ?_⟩
  have hp := List.find?_some h
  simpa using hp

theorem findNewRequest_none {ids : List String} {reqs : List PairingRequest}
    (h : findNewRequest ids reqs = none) :
    ∀ r ∈ reqs, ids.contains r.requestId = true := by
  intro r hr
  unfold findNewRequest at h
  have := List.find?_eq_none.mp h r hr
  simpa using this

theorem waitLoop_none_all {polls : Nat → List PairingRequest}
    {ids : List String} :
    ∀ fuel i, waitLoop polls ids i fuel = none →
      ∀ j, i ≤ j → j < i + fuel → ∀ r ∈ polls j,
        ids.contains r.requestId = true := by
  intro fuel
  induction fuel with
  | zero => intro i _ j hij hj; omega
  | succ f ih =>
      intro i h j hij hj r hr
      unfold waitLoop at h
      cases hfind : findNewRequest ids (polls i) with
      | some r' => rw [hfind] at h; cases h
      | none =>
          rw [hfind] at h
          by_cases hji : j = i
          · subst hji; exact findNewRequest_none hfind r hr
          · exact ih (i + 1) h j (by omega) (by omega) r hr

theorem waitLoop_some_found {polls : Nat → List PairingRequest}
    {ids : List String} :
    ∀ fuel i r, waitLoop polls ids i fuel = some r →
      ∃ j, i ≤ j ∧ j < i + fuel ∧ r ∈ polls j ∧
        ids.contains r.requestId = false := by
  intro fuel
  induction fuel with
  | zero => intro i r h; cases h
  | succ f ih =>
      intro i r h
      unfold waitLoop at h
      cases hfind : findNewRequest ids (polls i) with
      | some r' =>
          rw [hfind] at h
          obtain rfl : r' = r := by injection h
          obtain ⟨hm, hc⟩ := findNewRequest_some hfind
          exact ⟨i, Nat.le_refl i, by omega, hm, hc⟩
      | none =>
          rw [hfind] at h
          obtain ⟨j, h1, h2, h3, h4⟩ := ih (i + 1) r h
          exact ⟨j, by omega, by omega, h3, h4⟩

/-- C7: with `B` the baseline snapshot of pending ids, if some poll inside
the 60-second window shows a request whose id is outside `B`, the automation
issues exactly one approval call, targeting a request observed in-window
whose id is outside `B` (the first such request found); if every request
observed in-window has its id in `B`, it issues zero approval calls. -/
theorem autoConnect_approves_exactly_new (baseline : List PairingRequest)
    (polls : Nat → List PairingRequest) :
    ((∃ j, j < pairingMaxPolls ∧ ∃ r ∈ polls j,
        (baseline.map fun b => b.requestId).contains r.requestId = false) →
      ∃ r j, j < pairingMaxPolls ∧ r ∈ polls j ∧
        (baseline.map fun b => b.requestId).contains r.requestId = false ∧
        autoConnectApprovals baseline polls = [r.requestId]) ∧
    ((∀ j, j < pairingMaxPolls → ∀ r ∈ polls j,
        (baseline.map fun b => b.requestId).contains r.requestId = true) →
      autoConnectApprovals baseline polls = []) := by
  constructor
  · rintro ⟨j, hj, r, hr, hc⟩
    cases hw : waitForNewPairingRequest polls
        (baseline.map fun b => b.requestId) with
    | none =>
        exfalso
        have hall := waitLoop_none_all pairingMaxPolls 0 hw j (by omega)
          (by simpa using hj) r hr
        rw [hall] at hc
        cases hc
    | some r' =>
        obtain ⟨j', h1, h2, h3, h4⟩ :=
          waitLoop_some_found pairingMaxPolls 0 r' hw
        refine ⟨r', j', by simpa using h2, h3, h4, ?_⟩
        unfold autoConnectApprovals
        rw [hw]
  · intro hall
    cases hw : waitForNewPairingRequest polls
        (baseline.map fun b => b.requestId) with
    | none => unfold autoConnectApprovals; rw [hw]
    | some r' =>
        exfalso
        obtain ⟨j', h1, h2, h3, h4⟩ :=
          waitLoop_some_found pairingMaxPolls 0 r' hw
        have := hall j' (by simpa using h2) r' h3
        rw [this] at h4
        cases h4

/-- Witness for C7: one pre-existing pending request and no new one yields
zero approvals; an empty baseline with a new request at the second poll
yields exactly the approval of that request. -/
theorem autoConnect_approves_exactly_new_witness :
    autoConnectApprovals [⟨"old-1", "dev-0", "10.0.0.1", "60s"⟩]
      (fun _ => [⟨"old-1", "dev-0", "10.0.0.1", "60s"⟩]) = [] ∧
    autoConnectApprovals []
      (fun i => if i = 1 then [⟨"new-1", "dev-1", "10.0.0.2", "5s"⟩]
        else []) = ["new-1"] := by
  constructor
  · exact (autoConnect_approves_exactly_new _ _).2 (by decide)
  · rfl

/-! ### Claim C8 — image build trusts only verified images -/

/-- C8: `buildImage` returns the image tag only when the image backing it
passed `verifyImage` (either the pre-existing image, untouched, or the
freshly built one); an existing image that fails verification is removed and
rebuilt; and a fresh build whose image fails verification raises
`"Built image failed verification"` instead of returning. -/
theorem buildImage_returns_only_verified (uid : Nat) (e : ImageBuildEnv) :
    (∀ img, (buildImage uid e).result = some img → img = imageTag ∧
      (((buildImage uid e).ranBuild = false ∧ e.imageExists0 = true ∧
          verifyImage uid e.verifyExit0 e.verifyStdout0 = true) ∨
        ((buildImage uid e).ranBuild = true ∧
          verifyImage uid e.verifyExitBuilt e.verifyStdoutBuilt = true))) ∧
    (e.imageExists0 = true →
      verifyImage uid e.verifyExit0 e.verifyStdout0 = false →
      (buildImage uid e).removedExisting = true ∧
        (buildImage uid e).ranBuild = true) ∧
    (e.buildExit = 0 → e.imageExistsAfterBuild = true →
      verifyImage uid e.verifyExitBuilt e.verifyStdoutBuilt = false →
      (buildImage uid e).ranBuild = true →
      (buildImage uid e).result = none ∧
        (buildImage uid e).errMsg = some "Built image failed verification") := by
  unfold buildImage buildImageTail
  split_ifs <;> refine ⟨?_, ?_, ?_⟩ <;> intros <;> simp_all

/-- Witness for C8: with uid 1000, an existing image whose container reports
uid 0 is removed and rebuilt; the rebuilt image reporting uid 1000 is
returned. -/
theorem buildImage_returns_only_verified_witness :
    (buildImage 1000
        ⟨true, 0, "0\n", true, 0, true, 0, "1000\n"⟩).removedExisting = true ∧
    (buildImage 1000
        ⟨true, 0, "0\n", true, 0, true, 0, "1000\n"⟩).ranBuild = true ∧
    (buildImage 1000
        ⟨true, 0, "0\n", true, 0, true, 0, "1000\n"⟩).result = some imageTag :=
  ⟨((buildImage_returns_only_verified 1000
      ⟨true, 0, "0\n", true, 0, true, 0, "1000\n"⟩).2.1 rfl (by decide)).1,
   ((buildImage_returns_only_verified 1000
      ⟨true, 0, "0\n", true, 0, true, 0, "1000\n"⟩).2.1 rfl (by decide)).2,
   rfl⟩

/-! ### Claim C9 — the onboarding marker, not the PTY exit, is authoritative -/

/-- C9: when the completion marker is initially absent and skip is not
requested, `runOnboarding` succeeds iff the marker exists after the PTY
session — for either value of `ptyRaises`, so independently of how the
session ended. -/
theorem onboarding_marker_authoritative (markerB skip ptyR markerA : Bool)
    (hB : markerB = false) (hskip : skip = false) :
    runOnboarding ⟨markerB, skip, ptyR, markerA⟩ = .ok () ↔ markerA = true := by
  subst hB hskip
  unfold runOnboarding
  cases markerA <;> simp

/-- Witness for C9: a session that raises still succeeds when the marker
appeared, and a clean session still fails when it did not. -/
theorem onboarding_marker_authoritative_witness :
    runOnboarding ⟨false, false, true, true⟩ = .ok () ∧
    runOnboarding ⟨false, false, false, false⟩ ≠ .ok () := by
  constructor
  · exact (onboarding_marker_authoritative false false true true rfl rfl).mpr rfl
  · intro h
    have := (onboarding_marker_authoritative false false false false rfl rfl).mp h
    cases this

end RoboClaw
